import Mathlib

/-!
Verification development for the TasteBudsLocationDashboard ingestion core.

The repository's core is a checkpoint-driven retry engine spread over three
scripts (`ingest_stores_pt2.py`, `seed_db_one_date.py`, `seed_db_date_range.py`)
that share near-identical per-store logic.  This file shallowly embeds that
logic: the remote SFTP server is an explicit environment value, the JSON
checkpoint file is a `DurableRecord`, per-store processing is a pure state
transformer on `PassState`, and the retry loop is fuel-indexed recursion.
Side effects that the specification talks about (remote folder listings,
sink upserts, checkpoint saves) are recorded in an event trace.
-/

/-- Does `hay` (a list of characters) contain `needle` as a contiguous
substring?  Embeds Python's `needle in hay` on strings. -/
def containsSub (needle : List Char) : List Char → Bool
  | [] => needle.isEmpty
  | c :: rest => needle.isPrefixOf (c :: rest) || containsSub needle rest

/-- Python `needle in hay` for strings. -/
def strContains (hay needle : String) : Bool :=
  containsSub needle.data hay.data

/-- ASCII lowercasing of one character, as Python's `str.lower` acts on the
ASCII range (the filenames this system matches are ASCII). -/
def lowerChar (c : Char) : Char :=
  if 65 ≤ c.toNat ∧ c.toNat ≤ 90 then Char.ofNat (c.toNat + 32) else c

/-- `fname.lower()` as a character list. -/
def lowerStr (fname : String) : List Char :=
  fname.data.map lowerChar

/-- `"itemselectiondetails" in fname.lower()` — the item-CSV keyword test used
by every matcher loop in the repository. -/
def matchesItemKeyword (fname : String) : Bool :=
  containsSub "itemselectiondetails".data (lowerStr fname)

/-- `"modifiersselectiondetails" in fname.lower()` — the modifier-CSV keyword
test used by every matcher loop in the repository. -/
def matchesModKeyword (fname : String) : Bool :=
  containsSub "modifiersselectiondetails".data (lowerStr fname)

/-- The matcher loop body shared verbatim by `ingest_stores_pt2.py`,
`seed_db_one_date.py`, `sftp_ingest_stores.py` and `seed_db_date_range.py`:

    for fname in files:
        lower = fname.lower()
        if "itemselectiondetails" in lower:
            item_remote = f"{remote_dir}/{fname}"
        elif "modifiersselectiondetails" in lower:
            mod_remote = f"{remote_dir}/{fname}"

`acc` is the current `(item_remote, mod_remote)` pair (both start as `None`). -/
def locateLoop (remote_dir : String) (acc : Option String × Option String) :
    List String → Option String × Option String
  | [] => acc
  | fname :: rest =>
    if matchesItemKeyword fname then
      locateLoop remote_dir (some (remote_dir ++ "/" ++ fname), acc.2) rest
    else if matchesModKeyword fname then
      locateLoop remote_dir (acc.1, some (remote_dir ++ "/" ++ fname)) rest
    else
      locateLoop remote_dir acc rest

/-- The Artifact Matcher: run the matcher loop over a folder's filename listing
starting from `item_remote = mod_remote = None`. -/
def locateCSVs (remote_dir : String) (files : List String) :
    Option String × Option String :=
  locateLoop remote_dir (none, none) files

/-- The last element of `files` satisfying `p`, if any.  Spec-side description
used to characterise what the matcher loop actually selects. -/
def lastMatchName (p : String → Bool) : List String → Option String
  | [] => none
  | f :: rest =>
    match lastMatchName p rest with
    | some g => some g
    | none => if p f then some f else none

/-- State of the durable checkpoint record (the `processed_stores*.json` file):
absent, present but unreadable as JSON, or a readable list of store names. -/
inductive DurableRecord where
  | absent : DurableRecord
  | corrupt (raw : String) : DurableRecord
  | valid (stores : List String) : DurableRecord
deriving DecidableEq

/-- `load_processed_stores` (identical in `ingest_stores_pt2.py`,
`seed_db_one_date.py` and `seed_db_date_range.py`): return the store set read
from the JSON file; an absent file or any exception while reading yields the
empty set. -/
def load_processed_stores : DurableRecord → Finset String
  | DurableRecord.absent => ∅
  | DurableRecord.corrupt _ => ∅
  | DurableRecord.valid l => l.toFinset

/-- `save_processed_stores` (identical in all three scripts): overwrite the
JSON file with the sorted list of the full current store set. -/
def save_processed_stores (stores : Finset String) : DurableRecord :=
  DurableRecord.valid (stores.sort (· ≤ ·))

/-- `clear_processed_stores_file` (`seed_db_one_date.py`,
`seed_db_date_range.py`): delete the record if it exists. -/
def clear_processed_stores_file (_ : DurableRecord) : DurableRecord :=
  DurableRecord.absent

/-- Observable side effects of a pass, recorded in order. -/
inductive Event where
  | listRoot : Event
  | listStore (store : String) : Event
  | listFolder (store folder : String) : Event
  | openArtifacts (store folder : String) : Event
  | sinkUpsert (store folder : String) : Event
  | checkpointSave (rec : DurableRecord) : Event
deriving DecidableEq

/-- Mutable state threaded through a pass: the in-memory `processed_stores`
set, the durable record on disk, and the trace of observable effects. -/
structure PassState where
  processed : Finset String
  durable : DurableRecord
  trace : List Event
deriving DecidableEq

/-- Outcome of the `try:` block guarding one store's open/transform/save step:
everything succeeded, `items_df` was `None`/empty, the generated report was
empty, or an exception was raised (and caught at the store boundary). -/
inductive StoreOutcome where
  | ok : StoreOutcome
  | noItems : StoreOutcome
  | emptyReport : StoreOutcome
  | exc : StoreOutcome
deriving DecidableEq

/-- Environment for one single-date pass: the SFTP root listing, each store's
date-folder listing (`none` models `FileNotFoundError`), and the outcome of the
open/transform/save step for each store whose two CSVs were found. -/
structure SftpDay where
  rootListing : List String
  files : String → Option (List String)
  outcome : String → StoreOutcome

/-- Per-store body of `ingest_all_stores_for_date_once`, identical in
`ingest_stores_pt2.py` and `seed_db_one_date.py`: skip checkpointed stores;
list the store's date folder (skip on `FileNotFoundError`); run the matcher
(skip if either CSV is missing — `if not item_remote or not mod_remote`, and
the matched paths are never the empty string since they contain `/`); then
open/transform/save, and only on full success add the store to the set and
synchronously rewrite the durable record. -/
def processStore (env : SftpDay) (date_str : String) (store : String)
    (st : PassState) : PassState :=
  if store ∈ st.processed then st
  else
    match env.files store with
    | none => { st with trace := st.trace ++ [Event.listFolder store date_str] }
    | some files =>
      let st1 : PassState :=
        { st with trace := st.trace ++ [Event.listFolder store date_str] }
      let pair := locateCSVs (store ++ "/" ++ date_str) files
      if pair.1.isNone || pair.2.isNone then st1
      else
        let st2 : PassState :=
          { st1 with trace := st1.trace ++ [Event.openArtifacts store date_str] }
        match env.outcome store with
        | StoreOutcome.ok =>
          let p := insert store st.processed
          { processed := p
            durable := save_processed_stores p
            trace := st2.trace ++
              [Event.sinkUpsert store date_str,
               Event.checkpointSave (save_processed_stores p)] }
        | _ => st2

/-- Result of one retry-controller run: the spec's `COMPLETE` and `EXHAUSTED`
terminal states, plus `crashed` for an exception that propagated out of the
`while` loop (no `try` surrounds the pass call in the single-date mains).
Each carries the number of attempts performed, the final state, and the
`all_stores_seen` universe. -/
inductive RunResult where
  | complete (attempts : ℕ) (st : PassState) (seen : Finset String) : RunResult
  | exhausted (attempts : ℕ) (st : PassState) (seen : Finset String) : RunResult
  | crashed (attempts : ℕ) (st : PassState) (seen : Finset String) : RunResult
deriving DecidableEq

/-- Is the result the `crashed` case? -/
def RunResult.isCrashed : RunResult → Bool
  | RunResult.crashed _ _ _ => true
  | _ => false

/-- `SLEEP_SECONDS = 300` in all three retry scripts. -/
def SLEEP_SECONDS : ℕ := 300

/-- `MAX_ATTEMPTS = 60` in all three retry scripts. -/
def MAX_ATTEMPTS : ℕ := 60

/-- The retry loop shared verbatim by the `main()` of `ingest_stores_pt2.py`,
`seed_db_one_date.py` and `seed_db_date_range.py`:

    while attempts < MAX_ATTEMPTS:
        attempts += 1
        all_store_folders = <one ingest pass>          # may raise
        all_stores_seen |= set(all_store_folders)
        remaining = all_stores_seen - processed_stores
        if not remaining: break                        # COMPLETE
        time.sleep(SLEEP_SECONDS)

`passes n` is the pass attempted when `attempts = n` already happened:
`none` models an exception raised by the pass (e.g. a paramiko
connection/authentication failure), which no `try` in the loop catches, so it
propagates and ends the run (`crashed`).  `fuel` is `MAX_ATTEMPTS - attempts`. -/
def retryLoop (passes : ℕ → Option (PassState → Finset String × PassState)) :
    ℕ → ℕ → PassState → Finset String → RunResult
  | 0, attempts, st, seen => RunResult.exhausted attempts st seen
  | fuel + 1, attempts, st, seen =>
    match passes attempts with
    | none => RunResult.crashed (attempts + 1) st seen
    | some pass =>
      let res := pass st
      let seen' := seen ∪ res.1
      let st' := res.2
      if seen' \ st'.processed = ∅ then RunResult.complete (attempts + 1) st' seen'
      else retryLoop passes fuel (attempts + 1) st' seen'

namespace IngestPt2

/-- `PROCESSED_STORES_FILE = SCRIPT_DIR / "processed_stores.json"` in
`ingest_stores_pt2.py` (the scheduled yesterday-date run). -/
def PROCESSED_STORES_FILE : String := "processed_stores.json"

/-- `ingest_all_stores_for_date_once` from `ingest_stores_pt2.py`: list the
SFTP root (no exclusion list in this script) and fold the per-store body over
the listing in order; return the root listing as a set together with the
final state. -/
def ingest_all_stores_for_date_once (env : SftpDay) (date_str : String)
    (st : PassState) : Finset String × PassState :=
  let st0 : PassState := { st with trace := st.trace ++ [Event.listRoot] }
  (env.rootListing.toFinset,
   env.rootListing.foldl (fun s store => processStore env date_str store s) st0)

/-- The sequence of pass attempts of `main()`: attempt `n` either raises at
connection time (`envs n = none`) or runs one ingest pass against `envs n`. -/
def passes (envs : ℕ → Option SftpDay) (date_str : String) :
    ℕ → Option (PassState → Finset String × PassState) :=
  fun n => (envs n).map (fun env => ingest_all_stores_for_date_once env date_str)

/-- `main()` of `ingest_stores_pt2.py`: load the checkpoint set, then run the
retry loop.  Nothing clears the durable record in this script. -/
def main (envs : ℕ → Option SftpDay) (date_str : String)
    (durable0 : DurableRecord) : RunResult :=
  retryLoop (passes envs date_str) MAX_ATTEMPTS 0
    ⟨load_processed_stores durable0, durable0, []⟩ ∅

end IngestPt2

namespace SeedOneDate

/-- `PROCESSED_STORES_FILE = SCRIPT_DIR / f"processed_stores_{TARGET_DATE_STR}.json"`
in `seed_db_one_date.py` — keyed by the target date. -/
def PROCESSED_STORES_FILE (target_date_str : String) : String :=
  "processed_stores_" ++ target_date_str ++ ".json"

/-- `ingest_all_stores_for_date_once` from `seed_db_one_date.py`: identical to
the `ingest_stores_pt2.py` pass except that store `"217184"` is removed from
the root listing (first occurrence, as Python `list.remove`) before
`all_store_folders` is taken. -/
def ingest_all_stores_for_date_once (env : SftpDay) (date_str : String)
    (st : PassState) : Finset String × PassState :=
  let folders :=
    if "217184" ∈ env.rootListing then env.rootListing.erase "217184"
    else env.rootListing
  let st0 : PassState := { st with trace := st.trace ++ [Event.listRoot] }
  (folders.toFinset,
   folders.foldl (fun s store => processStore env date_str store s) st0)

/-- The sequence of pass attempts of `main()` in `seed_db_one_date.py`. -/
def passes (envs : ℕ → Option SftpDay) (date_str : String) :
    ℕ → Option (PassState → Finset String × PassState) :=
  fun n => (envs n).map (fun env => ingest_all_stores_for_date_once env date_str)

/-- `main()` of `seed_db_one_date.py`: load the checkpoint set, run the retry
loop, and then call `clear_processed_stores_file()` unconditionally — but the
clear is *not* in a `finally`, so if a pass raises, the exception propagates
past it and the record is left as last saved. -/
def main (envs : ℕ → Option SftpDay) (target_date_str : String)
    (durable0 : DurableRecord) : RunResult × DurableRecord :=
  match retryLoop (passes envs target_date_str) MAX_ATTEMPTS 0
      ⟨load_processed_stores durable0, durable0, []⟩ ∅ with
  | RunResult.crashed a st seen => (RunResult.crashed a st seen, st.durable)
  | r => (r, DurableRecord.absent)

end SeedOneDate

/-- A calendar date as parsed by `datetime.strptime(folder_name, "%Y%m%d")`. -/
structure YMD where
  y : ℕ
  m : ℕ
  d : ℕ
deriving DecidableEq

/-- Python `date` comparison: lexicographic on (year, month, day). -/
def YMD.le (a b : YMD) : Bool :=
  decide (a.y < b.y ∨ (a.y = b.y ∧ (a.m < b.m ∨ (a.m = b.m ∧ a.d ≤ b.d))))

/-- The numeric value of a decimal digit character, if it is one. -/
def digitVal (c : Char) : Option ℕ :=
  if c.isDigit then some (c.toNat - 48) else none

/-- The month group of CPython's `%m`: regex `1[0-2]|0[1-9]` (two characters). -/
def matchMonth2 (c1 c2 : Char) : Option ℕ :=
  match digitVal c1, digitVal c2 with
  | some a, some b =>
    if (a = 1 ∧ b ≤ 2) ∨ (a = 0 ∧ 1 ≤ b) then some (10 * a + b) else none
  | _, _ => none

/-- The month group of CPython's `%m`: regex alternative `[1-9]` (one character). -/
def matchMonth1 (c : Char) : Option ℕ :=
  match digitVal c with
  | some a => if 1 ≤ a then some a else none
  | none => none

/-- The day group of CPython's `%d`: regex `3[01]|[12]\d|0[1-9]` (two characters). -/
def matchDay2 (c1 c2 : Char) : Option ℕ :=
  match digitVal c1, digitVal c2 with
  | some a, some b =>
    if (a = 3 ∧ b ≤ 1) ∨ a = 1 ∨ a = 2 ∨ (a = 0 ∧ 1 ≤ b) then some (10 * a + b)
    else none
  | _, _ => none

/-- The day group of CPython's `%d`: regex alternative `[1-9]` (one character). -/
def matchDay1 (c : Char) : Option ℕ :=
  match digitVal c with
  | some a => if 1 ≤ a then some a else none
  | none => none

/-- Match `%m%d` against the characters remaining after the year, consuming
all of them, with the regex-engine backtracking order of CPython's
`_strptime` (two-character month alternatives are tried before the
one-character one, and the whole string must be consumed). -/
def parseMDFull : List Char → Option (ℕ × ℕ)
  | [a, b, c, e] =>
    match matchMonth2 a b, matchDay2 c e with
    | some m, some dd => some (m, dd)
    | _, _ => none
  | [a, b, c] =>
    match matchMonth2 a b, matchDay1 c with
    | some m, some dd => some (m, dd)
    | _, _ =>
      match matchMonth1 a, matchDay2 b c with
      | some m, some dd => some (m, dd)
      | _, _ => none
  | [a, b] =>
    match matchMonth1 a, matchDay1 b with
    | some m, some dd => some (m, dd)
    | _, _ => none
  | _ => none

/-- Gregorian leap year, as used by `datetime`. -/
def isLeap (y : ℕ) : Bool := (y % 4 = 0 && y % 100 ≠ 0) || y % 400 = 0

/-- Days in a month (`m` is already constrained to 1..12 by the regex). -/
def daysInMonth (y m : ℕ) : ℕ :=
  if m = 2 then (if isLeap y then 29 else 28)
  else if m = 4 ∨ m = 6 ∨ m = 9 ∨ m = 11 then 30
  else 31

/-- `datetime.strptime(folder_name, "%Y%m%d").date()` with the `ValueError`
cases mapped to `none` (the caller catches `ValueError` and skips the
folder): `%Y` consumes exactly four digits, `%m%d` consumes the rest with
backtracking, and the `datetime` constructor then validates the year range
and the day against the month length. -/
def parseYMD (s : String) : Option YMD :=
  match s.data with
  | c1 :: c2 :: c3 :: c4 :: rest =>
    match digitVal c1, digitVal c2, digitVal c3, digitVal c4 with
    | some a, some b, some c, some e =>
      let y := ((a * 10 + b) * 10 + c) * 10 + e
      match parseMDFull rest with
      | some (m, dd) =>
        if 1 ≤ y ∧ 1 ≤ dd ∧ dd ≤ daysInMonth y m then some ⟨y, m, dd⟩ else none
      | none => none
    | _, _, _, _ => none
  | _ => none

/-- Environment for one date-range pass: root listing, each store's sub-folder
listing (`none` models the caught listing exception), the files in each
store/folder (`none` models `FileNotFoundError`), and the outcome of the
open/transform/save step per store and folder. -/
structure SftpRange where
  rootListing : List String
  subfolders : String → Option (List String)
  files : String → String → Option (List String)
  outcome : String → String → StoreOutcome

/-- The `valid_dates` list of `ingest_all_stores_for_range_once`: keep the
sub-folder names that parse as `%Y%m%d` dates within `[lo, hi]`, paired with
their parsed dates, in listing order. -/
def validDates (lo hi : YMD) (date_folders : List String) : List (String × YMD) :=
  (date_folders.filterMap (fun n => (parseYMD n).map (fun d => (n, d)))).filter
    (fun p => YMD.le lo p.2 && YMD.le p.2 hi)

/-- `valid_dates.sort(key=lambda x: x[1])`: stable ascending sort by date.
Python's `list.sort` is stable, and a stable sort with respect to a total
preorder is uniquely determined by the input, so any stable sorting algorithm
is an exact model; `List.insertionSort` is stable and structurally recursive. -/
def sortValid (l : List (String × YMD)) : List (String × YMD) :=
  l.insertionSort (fun a b => YMD.le a.2 b.2 = true)

/-- Does the folder have both required CSVs (after listing it successfully)?
Spec-side abbreviation for stating theorems about the range loop. -/
def folderReady (env : SftpRange) (store fn : String) : Bool :=
  match env.files store fn with
  | none => false
  | some files =>
    let pair := locateCSVs (store ++ "/" ++ fn) files
    !pair.1.isNone && !pair.2.isNone

/-- The inner folder loop of `ingest_all_stores_for_range_once`
(`seed_db_date_range.py`): walk the sorted in-range folders; skip a folder on
`FileNotFoundError` or a missing CSV; otherwise open/transform/save — on full
success add the store to the set, rewrite the durable record and `break`; on
empty data, empty report, or a caught exception continue with the next
folder. -/
def tryFolders (env : SftpRange) (store : String) :
    List (String × YMD) → PassState → PassState
  | [], st => st
  | (fn, _) :: rest, st =>
    let st0 : PassState :=
      { st with trace := st.trace ++ [Event.listFolder store fn] }
    match env.files store fn with
    | none => tryFolders env store rest st0
    | some files =>
      let pair := locateCSVs (store ++ "/" ++ fn) files
      if pair.1.isNone || pair.2.isNone then tryFolders env store rest st0
      else
        let st1 : PassState :=
          { st0 with trace := st0.trace ++ [Event.openArtifacts store fn] }
        match env.outcome store fn with
        | StoreOutcome.ok =>
          let p := insert store st1.processed
          { processed := p
            durable := save_processed_stores p
            trace := st1.trace ++
              [Event.sinkUpsert store fn,
               Event.checkpointSave (save_processed_stores p)] }
        | _ => tryFolders env store rest st1

/-- Per-store body of `ingest_all_stores_for_range_once`: skip checkpointed
stores; list the store's sub-folders (a caught exception skips the store);
filter to parsable in-range dates, sort ascending by date, and run the folder
loop. -/
def processStoreRange (env : SftpRange) (lo hi : YMD) (store : String)
    (st : PassState) : PassState :=
  if store ∈ st.processed then st
  else
    match env.subfolders store with
    | none => { st with trace := st.trace ++ [Event.listStore store] }
    | some dfs =>
      let st0 : PassState :=
        { st with trace := st.trace ++ [Event.listStore store] }
      tryFolders env store (sortValid (validDates lo hi dfs)) st0

namespace SeedRange

/-- `PROCESSED_STORES_FILE = SCRIPT_DIR / "processed_stores.json"` in
`seed_db_date_range.py` — one shared record, not keyed by the range. -/
def PROCESSED_STORES_FILE : String := "processed_stores.json"

/-- `ingest_all_stores_for_range_once` (`seed_db_date_range.py`): list the
SFTP root, drop store `"217184"` if present, and fold the per-store body over
the remaining listing in order. -/
def ingest_all_stores_for_range_once (env : SftpRange) (lo hi : YMD)
    (st : PassState) : Finset String × PassState :=
  let folders :=
    if "217184" ∈ env.rootListing then env.rootListing.erase "217184"
    else env.rootListing
  let st0 : PassState := { st with trace := st.trace ++ [Event.listRoot] }
  (folders.toFinset,
   folders.foldl (fun s store => processStoreRange env lo hi store s) st0)

/-- The sequence of pass attempts of `main()` in `seed_db_date_range.py`. -/
def passes (envs : ℕ → Option SftpRange) (lo hi : YMD) :
    ℕ → Option (PassState → Finset String × PassState) :=
  fun n => (envs n).map (fun env => ingest_all_stores_for_range_once env lo hi)

/-- `main()` of `seed_db_date_range.py`: load the checkpoint set, run the
retry loop inside `try:`, and in the `finally:` always delete the shared
durable record — also when a pass raised (the run result is then `crashed`,
but the record is cleared regardless). -/
def main (envs : ℕ → Option SftpRange) (lo hi : YMD)
    (durable0 : DurableRecord) : RunResult × DurableRecord :=
  (retryLoop (passes envs lo hi) MAX_ATTEMPTS 0
    ⟨load_processed_stores durable0, durable0, []⟩ ∅,
   DurableRecord.absent)

end SeedRange

/-- A filename is selected for the modifier slot only when the `elif` is
reached, i.e. when it does not match the item keyword but matches the
modifier keyword. -/
def modEffective (f : String) : Bool :=
  !matchesItemKeyword f && matchesModKeyword f

/-- Concrete item CSV name used by witness scenarios. -/
def wItemFile : String := "ItemSelectionDetails.csv"

/-- Concrete modifier CSV name used by witness scenarios. -/
def wModFile : String := "ModifiersSelectionDetails.csv"

/-- Fresh run state: nothing processed, no durable record, empty trace. -/
def stEmpty : PassState := ⟨∅, DurableRecord.absent, []⟩

/-- Single-date environment with one store `"A"` that is fully ready. -/
def envDayA : SftpDay :=
  { rootListing := ["A"]
    files := fun _ => some [wItemFile, wModFile]
    outcome := fun _ => StoreOutcome.ok }

/-- Attempt sequence whose first connection raises and whose later passes
would succeed. -/
def envsConnFail : ℕ → Option SftpDay :=
  fun n => if n = 0 then none else some envDayA

/-- Single-date environment with stores `"A"` (processing raises) and `"B"`
(fully ready). -/
def envDayExc : SftpDay :=
  { rootListing := ["A", "B"]
    files := fun _ => some [wItemFile, wModFile]
    outcome := fun s => if s = "A" then StoreOutcome.exc else StoreOutcome.ok }

/-- Range environment with one store `"S"` publishing two ready date folders. -/
def envRangeW : SftpRange :=
  { rootListing := ["S"]
    subfolders := fun _ => some ["20251202", "20251205"]
    files := fun _ _ => some [wItemFile, wModFile]
    outcome := fun _ _ => StoreOutcome.ok }

/-- 2025-12-02. -/
def dW1 : YMD := ⟨2025, 12, 2⟩

/-- 2025-12-05. -/
def dW2 : YMD := ⟨2025, 12, 5⟩

/-- Range environment where processing store `"S"` on folder `"20251202"`
raises (and the folder `"20251205"` would succeed). -/
def envRangeExc : SftpRange :=
  { rootListing := ["S"]
    subfolders := fun _ => some ["20251202", "20251205"]
    files := fun _ _ => some [wItemFile, wModFile]
    outcome := fun _ fn => if fn = "20251202" then StoreOutcome.exc else StoreOutcome.ok }

/-- 2025-12-01 (range start used by witnesses). -/
def loW : YMD := ⟨2025, 12, 1⟩

/-- 2025-12-23 (range end used by witnesses). -/
def hiW : YMD := ⟨2025, 12, 23⟩

/-! ## Helper lemmas -/

/-- Running the matcher loop from any accumulator: each slot ends up holding
the prefixed last filename matching its keyword, or the accumulator's value
when no filename matches. -/
theorem locateLoop_eq (pre : String) (files : List String) :
    ∀ acc : Option String × Option String,
    locateLoop pre acc files =
      ((lastMatchName matchesItemKeyword files).elim acc.1
        (fun f => some (pre ++ "/" ++ f)),
       (lastMatchName modEffective files).elim acc.2
        (fun f => some (pre ++ "/" ++ f))) := by
  induction files with
  | nil => intro acc; simp [locateLoop, lastMatchName]
  | cons fname rest ih =>
    intro acc
    by_cases hi : matchesItemKeyword fname
    · have hm : modEffective fname = false := by simp [modEffective, hi]
      rw [show locateLoop pre acc (fname :: rest) =
          locateLoop pre (some (pre ++ "/" ++ fname), acc.2) rest by
        simp [locateLoop, hi]]
      rw [ih]
      cases hmi : lastMatchName matchesItemKeyword rest <;>
        cases hmm : lastMatchName modEffective rest <;>
          simp [lastMatchName, hmi, hmm, hi, hm]
    · by_cases hmod : matchesModKeyword fname
      · have hm : modEffective fname = true := by simp [modEffective, hi, hmod]
        rw [show locateLoop pre acc (fname :: rest) =
            locateLoop pre (acc.1, some (pre ++ "/" ++ fname)) rest by
          simp [locateLoop, hi, hmod]]
        rw [ih]
        cases hmi : lastMatchName matchesItemKeyword rest <;>
          cases hmm : lastMatchName modEffective rest <;>
            simp [lastMatchName, hmi, hmm, hi, hm]
      · have hm : modEffective fname = false := by simp [modEffective, hmod]
        rw [show locateLoop pre acc (fname :: rest) = locateLoop pre acc rest by
          simp [locateLoop, hi, hmod]]
        rw [ih]
        cases hmi : lastMatchName matchesItemKeyword rest <;>
          cases hmm : lastMatchName modEffective rest <;>
            simp [lastMatchName, hmi, hmm, hi, hm]

/-- `lastMatchName` is the last element of the filtered list. -/
theorem lastMatchName_eq_getLast (p : String → Bool) (l : List String) :
    lastMatchName p l = (l.filter p).getLast? := by
  induction l with
  | nil => simp [lastMatchName]
  | cons f rest ih =>
    by_cases hp : p f
    · rw [show lastMatchName p (f :: rest) =
          (match lastMatchName p rest with
           | some g => some g
           | none => if p f then some f else none) from rfl]
      rw [ih]
      cases hrest : (List.filter p rest).getLast? with
      | none =>
        have : List.filter p rest = [] := List.getLast?_eq_none_iff.mp hrest
        simp [List.filter_cons, hp, this]
      | some g =>
        have hne : List.filter p rest ≠ [] := by
          intro hnil
          rw [hnil] at hrest
          simp at hrest
        obtain ⟨b, t, hbt⟩ := List.exists_cons_of_ne_nil hne
        simp [List.filter_cons, hp, hbt]
        rw [hbt] at hrest
        simp [← hrest]
    · rw [show lastMatchName p (f :: rest) =
          (match lastMatchName p rest with
           | some g => some g
           | none => if p f then some f else none) from rfl]
      rw [ih]
      cases hrest : (List.filter p rest).getLast? <;> simp [List.filter_cons, hp, hrest]

/-! ## Claims -/

/-- Claim C1, counterexample.  The claim says the Artifact Matcher picks the
*first* filename matching a keyword in listing order.  On a listing where two
filenames match the item keyword, the code's `for` loop overwrites
`item_remote` on every match, so the matcher returns the *second* (last)
match, not the first. -/
theorem claim_C1_counterexample :
    matchesItemKeyword "a_ItemSelectionDetails.csv" = true ∧
    matchesItemKeyword "b_ItemSelectionDetails.csv" = true ∧
    (List.filter matchesItemKeyword
        ["a_ItemSelectionDetails.csv", "b_ItemSelectionDetails.csv",
         "ModifiersSelectionDetails.csv"]).head? =
      some "a_ItemSelectionDetails.csv" ∧
    (locateCSVs "101/20260101"
        ["a_ItemSelectionDetails.csv", "b_ItemSelectionDetails.csv",
         "ModifiersSelectionDetails.csv"]).1 =
      some "101/20260101/b_ItemSelectionDetails.csv" ∧
    (locateCSVs "101/20260101"
        ["a_ItemSelectionDetails.csv", "b_ItemSelectionDetails.csv",
         "ModifiersSelectionDetails.csv"]).1 ≠
      some "101/20260101/a_ItemSelectionDetails.csv" := by
  refine ⟨by decide, by decide, by decide, by decide, by decide⟩

/-- Claim C1, amended: when several filenames case-insensitively contain the
same required keyword, the matcher deterministically selects the *last*
matching filename in listing order (each later match overwrites the earlier
one); a filename containing both keywords counts only for the item slot
(`elif`). -/
theorem claim_C1_last_match (pre : String) (files : List String) :
    (locateCSVs pre files).1 =
      ((files.filter matchesItemKeyword).getLast?).map
        (fun f => pre ++ "/" ++ f) ∧
    (locateCSVs pre files).2 =
      ((files.filter modEffective).getLast?).map
        (fun f => pre ++ "/" ++ f) := by
  unfold locateCSVs
  rw [locateLoop_eq]
  rw [← lastMatchName_eq_getLast, ← lastMatchName_eq_getLast]
  constructor <;>
    · cases lastMatchName matchesItemKeyword files <;>
        cases lastMatchName modEffective files <;> simp

/-- Claim C8: `load_processed_stores` returns the empty set whenever the
durable record is missing or unreadable; corruption never raises (the model
is a total function) and is treated as "nothing processed yet".  A readable
record loads as the set of its entries. -/
theorem claim_C8_load_empty :
    (∀ raw : String, load_processed_stores (DurableRecord.corrupt raw) = ∅) ∧
    load_processed_stores DurableRecord.absent = ∅ ∧
    (∀ l : List String, load_processed_stores (DurableRecord.valid l) = l.toFinset) := by
  refine ⟨fun raw => rfl, rfl, fun l => rfl⟩

/-- Claim C3, counterexample.  The claim says *every* single-date run keys its
durable record by the target date.  The scheduled single-date run
(`ingest_stores_pt2.py`, which ingests yesterday's date) uses the undated
shared file `processed_stores.json` — the very same record as the range
script — so its record is not keyed by its target date. -/
theorem claim_C3_counterexample :
    IngestPt2.PROCESSED_STORES_FILE = SeedRange.PROCESSED_STORES_FILE ∧
    IngestPt2.PROCESSED_STORES_FILE = "processed_stores.json" ∧
    IngestPt2.PROCESSED_STORES_FILE ≠ SeedOneDate.PROCESSED_STORES_FILE "20251224" := by
  refine ⟨rfl, rfl, by decide⟩

/-- Claim C3, amended: the single-date *backfill* run (`seed_db_one_date.py`)
keys its durable record by the target date
(`processed_stores_<date>.json`); the scheduled single-date run
(`ingest_stores_pt2.py`) and range runs share the single undated record
`processed_stores.json`; the range run clears that record at run end
(its `finally:` always leaves the record deleted). -/
theorem claim_C3_records (d : String) (envs : ℕ → Option SftpRange) (lo hi : YMD)
    (durable0 : DurableRecord) :
    SeedOneDate.PROCESSED_STORES_FILE d = "processed_stores_" ++ d ++ ".json" ∧
    IngestPt2.PROCESSED_STORES_FILE = "processed_stores.json" ∧
    SeedRange.PROCESSED_STORES_FILE = "processed_stores.json" ∧
    IngestPt2.PROCESSED_STORES_FILE = SeedRange.PROCESSED_STORES_FILE ∧
    (SeedRange.main envs lo hi durable0).2 = DurableRecord.absent :=
  ⟨rfl, rfl, rfl, rfl, rfl⟩

/-- Claim C6: one store's step either leaves the state unchanged (already
checkpointed), or only appends the folder-listing event, or additionally the
artifact-open event, or — exactly when the report was persisted to the sink —
appends the sink upsert immediately followed by the synchronous checkpoint
save, whose record is the *full* new set rewritten as a sorted list
(`save_processed_stores`), never a partial or merge write; and the pass
(a left fold) finishes the store's step, including that save, before moving
to the next store. -/
theorem claim_C6_save_after_success (env : SftpDay) (date_str store : String)
    (st : PassState) (rest : List String) :
    ((processStore env date_str store st = st) ∨
     (processStore env date_str store st =
       { st with trace := st.trace ++ [Event.listFolder store date_str] }) ∨
     (processStore env date_str store st =
       { st with trace := st.trace ++ [Event.listFolder store date_str,
                                       Event.openArtifacts store date_str] }) ∨
     (processStore env date_str store st =
       { processed := insert store st.processed
         durable := save_processed_stores (insert store st.processed)
         trace := st.trace ++ [Event.listFolder store date_str,
                               Event.openArtifacts store date_str,
                               Event.sinkUpsert store date_str,
                               Event.checkpointSave
                                 (save_processed_stores (insert store st.processed))] })) ∧
    (store :: rest).foldl (fun s t => processStore env date_str t s) st =
      rest.foldl (fun s t => processStore env date_str t s)
        (processStore env date_str store st) := by
  constructor
  · by_cases hp : store ∈ st.processed
    · left
      simp [processStore, hp]
    · cases hf : env.files store with
      | none =>
        right; left
        simp [processStore, hp, hf]
      | some files =>
        by_cases hpair : ((locateCSVs (store ++ "/" ++ date_str) files).1.isNone ||
            (locateCSVs (store ++ "/" ++ date_str) files).2.isNone) = true
        · right; left
          simp [processStore, hp, hf, hpair]
        · cases ho : env.outcome store with
          | ok =>
            right; right; right
            simp [processStore, hp, hf, hpair, ho]
          | noItems =>
            right; right; left
            simp [processStore, hp, hf, hpair, ho]
          | emptyReport =>
            right; right; left
            simp [processStore, hp, hf, hpair, ho]
          | exc =>
            right; right; left
            simp [processStore, hp, hf, hpair, ho]
  · rfl

/-- The inner folder loop of the range pass never removes stores from the
checkpoint set: it either leaves it unchanged or inserts exactly the store it
is working on. -/
theorem tryFolders_processed_aux (env : SftpRange) (store : String)
    (l : List (String × YMD)) :
    ∀ st : PassState,
    (tryFolders env store l st).processed = st.processed ∨
    (tryFolders env store l st).processed = insert store st.processed := by
  induction l with
  | nil => intro st; left; rfl
  | cons p rest ih =>
    intro st
    obtain ⟨fn, d⟩ := p
    cases hf : env.files store fn with
    | none =>
      have h := ih { st with trace := st.trace ++ [Event.listFolder store fn] }
      simpa [tryFolders, hf] using h
    | some files =>
      by_cases hpair : ((locateCSVs (store ++ "/" ++ fn) files).1.isNone ||
          (locateCSVs (store ++ "/" ++ fn) files).2.isNone) = true
      · have h := ih { st with trace := st.trace ++ [Event.listFolder store fn] }
        simpa [tryFolders, hf, hpair] using h
      · cases ho : env.outcome store fn with
        | ok =>
          right
          simp [tryFolders, hf, hpair, ho]
        | noItems =>
          have h := ih { st with trace := st.trace ++ [Event.listFolder store fn,
            Event.openArtifacts store fn] }
          simp only [tryFolders, hf, hpair, ho] at *
          simpa [List.append_assoc] using h
        | emptyReport =>
          have h := ih { st with trace := st.trace ++ [Event.listFolder store fn,
            Event.openArtifacts store fn] }
          simp only [tryFolders, hf, hpair, ho] at *
          simpa [List.append_assoc] using h
        | exc =>
          have h := ih { st with trace := st.trace ++ [Event.listFolder store fn,
            Event.openArtifacts store fn] }
          simp only [tryFolders, hf, hpair, ho] at *
          simpa [List.append_assoc] using h

/-- Claim C9: during a run the checkpoint set grows monotonically — each
per-store step of either pass flavour leaves the set unchanged or inserts
exactly that store; nothing removes entries (the only deletion is the
end-of-run clear of the durable record, which rewrites the file, not the
in-memory set). -/
theorem claim_C9_monotone :
    (∀ (env : SftpDay) (date_str store : String) (st : PassState),
      (processStore env date_str store st).processed = st.processed ∨
      (processStore env date_str store st).processed = insert store st.processed) ∧
    (∀ (env : SftpRange) (lo hi : YMD) (store : String) (st : PassState),
      (processStoreRange env lo hi store st).processed = st.processed ∨
      (processStoreRange env lo hi store st).processed = insert store st.processed) := by
  constructor
  · intro env date_str store st
    by_cases hp : store ∈ st.processed
    · left; simp [processStore, hp]
    · cases hf : env.files store with
      | none => left; simp [processStore, hp, hf]
      | some files =>
        by_cases hpair : ((locateCSVs (store ++ "/" ++ date_str) files).1.isNone ||
            (locateCSVs (store ++ "/" ++ date_str) files).2.isNone) = true
        · left; simp [processStore, hp, hf, hpair]
        · cases ho : env.outcome store with
          | ok => right; simp [processStore, hp, hf, hpair, ho]
          | noItems => left; simp [processStore, hp, hf, hpair, ho]
          | emptyReport => left; simp [processStore, hp, hf, hpair, ho]
          | exc => left; simp [processStore, hp, hf, hpair, ho]
  · intro env lo hi store st
    by_cases hp : store ∈ st.processed
    · left; simp [processStoreRange, hp]
    · cases hs : env.subfolders store with
      | none => left; simp [processStoreRange, hp, hs]
      | some dfs =>
        have h := tryFolders_processed_aux env store
          (sortValid (validDates lo hi dfs))
          { st with trace := st.trace ++ [Event.listStore store] }
        simpa [processStoreRange, hp, hs] using h

/-- Claim C2, counterexample.  The claim says a connectivity failure is fatal
only to the current pass and the controller retries on the next pass.  With
an environment whose first connection attempt raises and whose later passes
would succeed, `main` ends immediately in the `crashed` state after attempt 1
(nothing caught the exception inside the `while` loop), even though running
the very next attempt would have completed the run. -/
theorem claim_C2_counterexample :
    IngestPt2.main envsConnFail "20260101" DurableRecord.absent =
      RunResult.crashed 1 stEmpty ∅ ∧
    retryLoop (IngestPt2.passes envsConnFail "20260101") 59 1 stEmpty ∅ =
      RunResult.complete 2
        ⟨insert "A" ∅, save_processed_stores (insert "A" ∅),
         [Event.listRoot, Event.listFolder "A" "20260101",
          Event.openArtifacts "A" "20260101", Event.sinkUpsert "A" "20260101",
          Event.checkpointSave (save_processed_stores (insert "A" ∅))]⟩
        (insert "A" ∅) :=
  ⟨rfl, rfl⟩

/-- Claim C2, amended: an exception raised by a pass (e.g. a paramiko
authentication or transport failure at connection time) is fatal to the whole
run, not only to the pass — no `try` in the retry loop catches it, so the
loop terminates in the `crashed` state at that attempt, performs no sleep and
no further passes, and the state stays as last checkpointed. -/
theorem claim_C2_crash
    (P : ℕ → Option (PassState → Finset String × PassState))
    (fuel attempts : ℕ) (st : PassState) (seen : Finset String)
    (envs : ℕ → Option SftpDay) (date_str : String) (durable0 : DurableRecord)
    (h1 : P attempts = none) (h2 : envs 0 = none) :
    retryLoop P (fuel + 1) attempts st seen =
      RunResult.crashed (attempts + 1) st seen ∧
    IngestPt2.main envs date_str durable0 =
      RunResult.crashed 1 ⟨load_processed_stores durable0, durable0, []⟩ ∅ := by
  constructor
  · simp [retryLoop, h1]
  · show retryLoop _ (Nat.succ 59) 0 _ _ = _
    have hp : IngestPt2.passes envs date_str 0 = none := by
      simp [IngestPt2.passes, h2]
    simp [retryLoop, hp]

/-- Witness for the amended claim C2 at a concrete failing environment. -/
theorem claim_C2_crash_witness :
    retryLoop (IngestPt2.passes envsConnFail "20260101") 60 0 stEmpty ∅ =
      RunResult.crashed 1 stEmpty ∅ ∧
    IngestPt2.main envsConnFail "20260101" DurableRecord.absent =
      RunResult.crashed 1
        ⟨load_processed_stores DurableRecord.absent, DurableRecord.absent, []⟩ ∅ :=
  claim_C2_crash (IngestPt2.passes envsConnFail "20260101") 59 0 stEmpty ∅
    envsConnFail "20260101" DurableRecord.absent rfl rfl

/-- A pass step over a listing of already-checkpointed stores changes
nothing: each store hits the skip branch, which returns the state untouched
(no event, no set change, no save). -/
theorem foldl_processStore_skip (env : SftpDay) (date_str : String)
    (l : List String) :
    ∀ st : PassState, (∀ s ∈ l, s ∈ st.processed) →
    l.foldl (fun s t => processStore env date_str t s) st = st := by
  induction l with
  | nil => intro st _; rfl
  | cons a rest ih =>
    intro st h
    have ha : a ∈ st.processed := h a (by simp)
    have hstep : processStore env date_str a st = st := by simp [processStore, ha]
    rw [List.foldl_cons, hstep]
    exact ih st fun s hs => h s (by simp [hs])

/-- One step of the retry loop when the connection attempt succeeds: run the
pass, union the observed stores, and either complete or recurse. -/
theorem retryLoop_step (P : ℕ → Option (PassState → Finset String × PassState))
    (fuel attempts : ℕ) (st : PassState) (seen : Finset String)
    (pass : PassState → Finset String × PassState)
    (hP : P attempts = some pass) :
    retryLoop P (fuel + 1) attempts st seen =
      (if (seen ∪ (pass st).1) \ (pass st).2.processed = ∅
       then RunResult.complete (attempts + 1) (pass st).2 (seen ∪ (pass st).1)
       else retryLoop P fuel (attempts + 1) (pass st).2 (seen ∪ (pass st).1)) := by
  conv_lhs => rw [retryLoop]
  rw [hP]

/-- Claim C5: re-running a completed single-date run with an unchanged
durable record processes zero entities — every store in the root listing is
already in the loaded checkpoint set, each is skipped without any remote
folder access or sink call (the only trace event is the root listing), the
set and the durable record are unchanged, and the controller exits
`COMPLETE` after the first pass. -/
theorem claim_C5_idempotent (envs : ℕ → Option SftpDay) (env : SftpDay)
    (date_str : String) (durable0 : DurableRecord)
    (h0 : envs 0 = some env)
    (hdone : ∀ s ∈ env.rootListing, s ∈ load_processed_stores durable0) :
    IngestPt2.main envs date_str durable0 =
      RunResult.complete 1
        ⟨load_processed_stores durable0, durable0, [Event.listRoot]⟩
        env.rootListing.toFinset := by
  have hp : IngestPt2.passes envs date_str 0 =
      some (IngestPt2.ingest_all_stores_for_date_once env date_str) := by
    simp [IngestPt2.passes, h0]
  have hfold : env.rootListing.foldl (fun s t => processStore env date_str t s)
      ⟨load_processed_stores durable0, durable0, [] ++ [Event.listRoot]⟩ =
      ⟨load_processed_stores durable0, durable0, [] ++ [Event.listRoot]⟩ :=
    foldl_processStore_skip env date_str env.rootListing _ fun s hs => hdone s hs
  have hpass : IngestPt2.ingest_all_stores_for_date_once env date_str
      ⟨load_processed_stores durable0, durable0, []⟩ =
      (env.rootListing.toFinset,
       ⟨load_processed_stores durable0, durable0, [Event.listRoot]⟩) := by
    show (env.rootListing.toFinset,
      env.rootListing.foldl (fun s t => processStore env date_str t s)
        ⟨load_processed_stores durable0, durable0, [] ++ [Event.listRoot]⟩) = _
    rw [hfold]
    rfl
  have hsub : ((∅ : Finset String) ∪ env.rootListing.toFinset) \
      load_processed_stores durable0 = ∅ := by
    rw [Finset.sdiff_eq_empty_iff_subset]
    intro x hx
    rw [Finset.empty_union, List.mem_toFinset] at hx
    exact hdone x hx
  unfold IngestPt2.main
  show retryLoop _ (59 + 1) 0 _ _ = _
  rw [retryLoop_step _ 59 0 _ _ _ hp, hpass]
  rw [if_pos (by simpa using hsub)]
  simp

/-- Witness for claim C5: a two-store environment whose durable record
already lists both stores completes on the first pass without touching any
store. -/
theorem claim_C5_witness :
    IngestPt2.main (fun _ => some envDayExc) "20260101"
        (DurableRecord.valid ["A", "B"]) =
      RunResult.complete 1
        ⟨load_processed_stores (DurableRecord.valid ["A", "B"]),
         DurableRecord.valid ["A", "B"], [Event.listRoot]⟩
        envDayExc.rootListing.toFinset :=
  claim_C5_idempotent (fun _ => some envDayExc) envDayExc "20260101"
    (DurableRecord.valid ["A", "B"]) rfl (by decide)

/-- Claim C7: when a store is ready (folder listed, both CSVs matched) but the
open/transform/save step raises, the exception is caught at that store's
boundary: the state records only the listing and artifact-open events — the
store is not inserted, the durable record is untouched, no checkpoint-save
event is emitted — and the pass continues with the remaining stores.  The
same holds for the range pass's inner folder loop, which continues with the
next folder. -/
theorem claim_C7_store_isolation
    (env : SftpDay) (date_str store : String) (rest : List String)
    (st : PassState) (files : List String)
    (envR : SftpRange) (storeR fn : String) (dR : YMD)
    (restF : List (String × YMD)) (stR : PassState) (filesR : List String)
    (hnp : store ∉ st.processed)
    (hf : env.files store = some files)
    (hpair : ((locateCSVs (store ++ "/" ++ date_str) files).1.isNone ||
        (locateCSVs (store ++ "/" ++ date_str) files).2.isNone) = false)
    (hexc : env.outcome store = StoreOutcome.exc)
    (hfR : envR.files storeR fn = some filesR)
    (hpairR : ((locateCSVs (storeR ++ "/" ++ fn) filesR).1.isNone ||
        (locateCSVs (storeR ++ "/" ++ fn) filesR).2.isNone) = false)
    (hexcR : envR.outcome storeR fn = StoreOutcome.exc) :
    processStore env date_str store st =
      { st with trace := st.trace ++ [Event.listFolder store date_str,
                                      Event.openArtifacts store date_str] } ∧
    (processStore env date_str store st).processed = st.processed ∧
    (processStore env date_str store st).durable = st.durable ∧
    (store :: rest).foldl (fun s t => processStore env date_str t s) st =
      rest.foldl (fun s t => processStore env date_str t s)
        { st with trace := st.trace ++ [Event.listFolder store date_str,
                                        Event.openArtifacts store date_str] } ∧
    tryFolders envR storeR ((fn, dR) :: restF) stR =
      tryFolders envR storeR restF
        { stR with trace := stR.trace ++ [Event.listFolder storeR fn,
                                          Event.openArtifacts storeR fn] } := by
  have hstep : processStore env date_str store st =
      { st with trace := st.trace ++ [Event.listFolder store date_str,
                                      Event.openArtifacts store date_str] } := by
    simp [processStore, hnp, hf, hpair, hexc]
  refine ⟨hstep, by rw [hstep], by rw [hstep], by rw [List.foldl_cons, hstep], ?_⟩
  simp [tryFolders, hfR, hpairR, hexcR, List.append_assoc]

/-- Witness for claim C7: store `"A"` raises while `"B"` is healthy, and the
range store's first folder raises. -/
theorem claim_C7_witness :
    processStore envDayExc "20260101" "A" stEmpty =
      { stEmpty with trace := stEmpty.trace ++
          [Event.listFolder "A" "20260101", Event.openArtifacts "A" "20260101"] } ∧
    (processStore envDayExc "20260101" "A" stEmpty).processed = stEmpty.processed ∧
    (processStore envDayExc "20260101" "A" stEmpty).durable = stEmpty.durable ∧
    (["A", "B"].foldl (fun s t => processStore envDayExc "20260101" t s) stEmpty =
      ["B"].foldl (fun s t => processStore envDayExc "20260101" t s)
        { stEmpty with trace := stEmpty.trace ++
            [Event.listFolder "A" "20260101", Event.openArtifacts "A" "20260101"] }) ∧
    tryFolders envRangeExc "S" [("20251202", dW1), ("20251205", dW2)] stEmpty =
      tryFolders envRangeExc "S" [("20251205", dW2)]
        { stEmpty with trace := stEmpty.trace ++
            [Event.listFolder "S" "20251202", Event.openArtifacts "S" "20251202"] } :=
  claim_C7_store_isolation envDayExc "20260101" "A" ["B"] stEmpty
    [wItemFile, wModFile] envRangeExc "S" "20251202" dW1 [("20251205", dW2)]
    stEmpty [wItemFile, wModFile] (by decide) rfl (by decide) rfl rfl (by decide) rfl

/-- Claim C10: whenever the single-date backfill's retry loop ends normally
(all stores processed, or the attempt budget exhausted — i.e. the run did not
crash), `main` deletes the per-date durable record unconditionally, so a
subsequent run for the same target date loads the empty checkpoint set and
reconsiders every entity. -/
theorem claim_C10_clear (envs : ℕ → Option SftpDay) (target : String)
    (durable0 : DurableRecord)
    (h : (SeedOneDate.main envs target durable0).1.isCrashed = false) :
    (SeedOneDate.main envs target durable0).2 = DurableRecord.absent ∧
    load_processed_stores (SeedOneDate.main envs target durable0).2 = ∅ := by
  unfold SeedOneDate.main at h ⊢
  revert h
  cases retryLoop (SeedOneDate.passes envs target) MAX_ATTEMPTS 0
      ⟨load_processed_stores durable0, durable0, []⟩ ∅ with
  | complete a st seen => intro _; exact ⟨rfl, rfl⟩
  | exhausted a st seen => intro _; exact ⟨rfl, rfl⟩
  | crashed a st seen => intro h; exact absurd h (by simp [RunResult.isCrashed])

/-- Witness for claim C10: a run that completes on the first pass ends with
the durable record deleted and a fresh load yielding the empty set. -/
theorem claim_C10_witness :
    (SeedOneDate.main (fun _ => some envDayA) "20260101" DurableRecord.absent).2 =
      DurableRecord.absent ∧
    load_processed_stores
      (SeedOneDate.main (fun _ => some envDayA) "20260101" DurableRecord.absent).2 = ∅ :=
  claim_C10_clear (fun _ => some envDayA) "20260101" DurableRecord.absent rfl

/-- The date order used for sorting is transitive. -/
theorem YMD.le_transitive (a b c : YMD) (hab : YMD.le a b = true)
    (hbc : YMD.le b c = true) : YMD.le a c = true := by
  simp only [YMD.le, decide_eq_true_eq] at *
  omega

/-- The date order used for sorting is total. -/
theorem YMD.le_totality (a b : YMD) : YMD.le a b = true ∨ YMD.le b a = true := by
  simp only [YMD.le, decide_eq_true_eq]
  omega

/-- The sorted in-range folder list of the range pass is ascending by date. -/
theorem sortValid_pairwise (l : List (String × YMD)) :
    (sortValid l).Pairwise (fun a b => YMD.le a.2 b.2 = true) := by
  haveI : IsTotal (String × YMD) (fun a b => YMD.le a.2 b.2 = true) :=
    ⟨fun a b => YMD.le_totality a.2 b.2⟩
  haveI : IsTrans (String × YMD) (fun a b => YMD.le a.2 b.2 = true) :=
    ⟨fun a b c => YMD.le_transitive a.2 b.2 c.2⟩
  exact List.sorted_insertionSort _ l

/-- Folders that are not ready (folder listing missing, or one of the two
CSVs not matched) are skipped by the inner folder loop, leaving only their
listing events behind. -/
theorem tryFolders_skip (env : SftpRange) (store : String)
    (pre : List (String × YMD)) :
    ∀ (rest : List (String × YMD)) (st : PassState),
    (∀ p ∈ pre, folderReady env store p.1 = false) →
    tryFolders env store (pre ++ rest) st =
      tryFolders env store rest
        { st with trace := st.trace ++ pre.map (fun p => Event.listFolder store p.1) } := by
  induction pre with
  | nil =>
    intro rest st _
    simp
  | cons p pre ih =>
    intro rest st hnr
    obtain ⟨fn, d⟩ := p
    have hful : folderReady env store fn = false := hnr (fn, d) (by simp)
    cases hf : env.files store fn with
    | none =>
      rw [show tryFolders env store (((fn, d) :: pre) ++ rest) st =
          tryFolders env store (pre ++ rest)
            { st with trace := st.trace ++ [Event.listFolder store fn] } by
        simp [tryFolders, hf]]
      rw [ih rest _ fun q hq => hnr q (by simp [hq])]
      simp [List.append_assoc]
    | some files =>
      have hpair : ((locateCSVs (store ++ "/" ++ fn) files).1.isNone ||
          (locateCSVs (store ++ "/" ++ fn) files).2.isNone) = true := by
        simp only [folderReady, hf] at hful
        cases h1 : (locateCSVs (store ++ "/" ++ fn) files).1.isNone <;>
          cases h2 : (locateCSVs (store ++ "/" ++ fn) files).2.isNone <;>
            simp_all
      rw [show tryFolders env store (((fn, d) :: pre) ++ rest) st =
          tryFolders env store (pre ++ rest)
            { st with trace := st.trace ++ [Event.listFolder store fn] } by
        simp [tryFolders, hf, hpair]]
      rw [ih rest _ fun q hq => hnr q (by simp [hq])]
      simp [List.append_assoc]

/-- When a folder has both CSVs and the open/transform/save step succeeds,
the inner folder loop processes it, marks the store, saves the checkpoint
and `break`s — later folders are not touched. -/
theorem tryFolders_ready_ok (env : SftpRange) (store fn : String) (d : YMD)
    (post : List (String × YMD)) (st : PassState) (files : List String)
    (hf : env.files store fn = some files)
    (hpair : ((locateCSVs (store ++ "/" ++ fn) files).1.isNone ||
        (locateCSVs (store ++ "/" ++ fn) files).2.isNone) = false)
    (hok : env.outcome store fn = StoreOutcome.ok) :
    tryFolders env store ((fn, d) :: post) st =
      { processed := insert store st.processed
        durable := save_processed_stores (insert store st.processed)
        trace := st.trace ++
          [Event.listFolder store fn, Event.openArtifacts store fn,
           Event.sinkUpsert store fn,
           Event.checkpointSave (save_processed_stores (insert store st.processed))] } := by
  simp [tryFolders, hf, hpair, hok, List.append_assoc]

/-- Claim C4: in date-range mode, for a store not yet checkpointed, the
sub-folders parsable as `%Y%m%d` dates in `[lo, hi]` are sorted ascending by
date and iterated until the first folder with both required CSVs; when
processing that folder succeeds, the store is inserted, the checkpoint is
saved, and no later date folder is listed, opened or upserted — in
particular a second eligible folder `f2` later in the sorted order (so with
`d1 ≤ d2`) is never touched. -/
theorem claim_C4_first_eligible_date
    (env : SftpRange) (lo hi d1 d2 : YMD) (store f1 f2 : String)
    (dfs : List String) (pre post : List (String × YMD)) (st : PassState)
    (hnp : store ∉ st.processed)
    (hsf : env.subfolders store = some dfs)
    (hlist : sortValid (validDates lo hi dfs) = pre ++ (f1, d1) :: post)
    (hpre : ∀ p ∈ pre, folderReady env store p.1 = false)
    (hf1 : folderReady env store f1 = true)
    (hok : env.outcome store f1 = StoreOutcome.ok)
    (hf2 : (f2, d2) ∈ post)
    (hne1 : f2 ≠ f1)
    (hne2 : ∀ p ∈ pre, p.1 ≠ f2) :
    (processStoreRange env lo hi store st).processed = insert store st.processed ∧
    (processStoreRange env lo hi store st).durable =
      save_processed_stores (insert store st.processed) ∧
    (processStoreRange env lo hi store st).trace =
      st.trace ++ Event.listStore store ::
        (pre.map (fun p => Event.listFolder store p.1) ++
         [Event.listFolder store f1, Event.openArtifacts store f1,
          Event.sinkUpsert store f1,
          Event.checkpointSave (save_processed_stores (insert store st.processed))]) ∧
    Event.listFolder store f2 ∉
      Event.listStore store ::
        (pre.map (fun p => Event.listFolder store p.1) ++
         [Event.listFolder store f1, Event.openArtifacts store f1,
          Event.sinkUpsert store f1,
          Event.checkpointSave (save_processed_stores (insert store st.processed))]) ∧
    Event.openArtifacts store f2 ∉
      Event.listStore store ::
        (pre.map (fun p => Event.listFolder store p.1) ++
         [Event.listFolder store f1, Event.openArtifacts store f1,
          Event.sinkUpsert store f1,
          Event.checkpointSave (save_processed_stores (insert store st.processed))]) ∧
    Event.sinkUpsert store f2 ∉
      Event.listStore store ::
        (pre.map (fun p => Event.listFolder store p.1) ++
         [Event.listFolder store f1, Event.openArtifacts store f1,
          Event.sinkUpsert store f1,
          Event.checkpointSave (save_processed_stores (insert store st.processed))]) ∧
    YMD.le d1 d2 = true := by
  obtain ⟨files, hfe, hp1⟩ : ∃ files, env.files store f1 = some files ∧
      ((locateCSVs (store ++ "/" ++ f1) files).1.isNone ||
       (locateCSVs (store ++ "/" ++ f1) files).2.isNone) = false := by
    cases h : env.files store f1 with
    | none => simp [folderReady, h] at hf1
    | some files =>
      refine ⟨files, rfl, ?_⟩
      simp only [folderReady, h] at hf1
      cases h1 : (locateCSVs (store ++ "/" ++ f1) files).1.isNone <;>
        cases h2 : (locateCSVs (store ++ "/" ++ f1) files).2.isNone <;>
          simp_all
  have hmain : processStoreRange env lo hi store st =
      { processed := insert store st.processed
        durable := save_processed_stores (insert store st.processed)
        trace := st.trace ++ Event.listStore store ::
          (pre.map (fun p => Event.listFolder store p.1) ++
           [Event.listFolder store f1, Event.openArtifacts store f1,
            Event.sinkUpsert store f1,
            Event.checkpointSave (save_processed_stores (insert store st.processed))]) } := by
    simp only [processStoreRange, hsf]
    rw [if_neg hnp, hlist]
    rw [tryFolders_skip env store pre ((f1, d1) :: post) _ hpre]
    rw [tryFolders_ready_ok env store f1 d1 post _ files hfe hp1 hok]
    simp [List.append_assoc]
  have hmem1 : Event.listFolder store f2 ∉
      Event.listStore store ::
        (pre.map (fun p => Event.listFolder store p.1) ++
         [Event.listFolder store f1, Event.openArtifacts store f1,
          Event.sinkUpsert store f1,
          Event.checkpointSave (save_processed_stores (insert store st.processed))]) := by
    intro hmem
    simp only [List.mem_cons, List.mem_append, List.mem_map, List.mem_singleton] at hmem
    rcases hmem with h | ⟨p, hp, hpe⟩ | h | h | h | h | h
    · exact Event.noConfusion h
    · exact hne2 p hp (by injection hpe with h1 h2)
    · injection h with h1 h2; exact hne1 h2
    · exact Event.noConfusion h
    · exact Event.noConfusion h
    · exact Event.noConfusion h
    · exact List.not_mem_nil _ h
  have hmem2 : Event.openArtifacts store f2 ∉
      Event.listStore store ::
        (pre.map (fun p => Event.listFolder store p.1) ++
         [Event.listFolder store f1, Event.openArtifacts store f1,
          Event.sinkUpsert store f1,
          Event.checkpointSave (save_processed_stores (insert store st.processed))]) := by
    intro hmem
    simp only [List.mem_cons, List.mem_append, List.mem_map, List.mem_singleton] at hmem
    rcases hmem with h | ⟨p, hp, hpe⟩ | h | h | h | h | h
    · exact Event.noConfusion h
    · exact Event.noConfusion hpe
    · exact Event.noConfusion h
    · injection h with h1 h2; exact hne1 h2
    · exact Event.noConfusion h
    · exact Event.noConfusion h
    · exact List.not_mem_nil _ h
  have hmem3 : Event.sinkUpsert store f2 ∉
      Event.listStore store ::
        (pre.map (fun p => Event.listFolder store p.1) ++
         [Event.listFolder store f1, Event.openArtifacts store f1,
          Event.sinkUpsert store f1,
          Event.checkpointSave (save_processed_stores (insert store st.processed))]) := by
    intro hmem
    simp only [List.mem_cons, List.mem_append, List.mem_map, List.mem_singleton] at hmem
    rcases hmem with h | ⟨p, hp, hpe⟩ | h | h | h | h | h
    · exact Event.noConfusion h
    · exact Event.noConfusion hpe
    · exact Event.noConfusion h
    · exact Event.noConfusion h
    · injection h with h1 h2; exact hne1 h2
    · exact Event.noConfusion h
    · exact List.not_mem_nil _ h
  have hsorted := sortValid_pairwise (validDates lo hi dfs)
  rw [hlist] at hsorted
  have h12 : YMD.le d1 d2 = true :=
    List.rel_of_pairwise_cons (List.pairwise_append.mp hsorted).2.1 hf2
  exact ⟨by rw [hmain], by rw [hmain], by rw [hmain], hmem1, hmem2, hmem3, h12⟩

/-- Witness for claim C4: store `"S"` publishes eligible folders on
2025-12-02 and 2025-12-05 inside the range; only the earlier folder is
listed, opened and upserted, and the store is checkpointed. -/
theorem claim_C4_witness :
    (processStoreRange envRangeW loW hiW "S" stEmpty).processed =
      insert "S" stEmpty.processed ∧
    (processStoreRange envRangeW loW hiW "S" stEmpty).durable =
      save_processed_stores (insert "S" stEmpty.processed) ∧
    (processStoreRange envRangeW loW hiW "S" stEmpty).trace =
      stEmpty.trace ++ Event.listStore "S" ::
        (([] : List (String × YMD)).map (fun p => Event.listFolder "S" p.1) ++
         [Event.listFolder "S" "20251202", Event.openArtifacts "S" "20251202",
          Event.sinkUpsert "S" "20251202",
          Event.checkpointSave (save_processed_stores (insert "S" stEmpty.processed))]) ∧
    Event.listFolder "S" "20251205" ∉
      Event.listStore "S" ::
        (([] : List (String × YMD)).map (fun p => Event.listFolder "S" p.1) ++
         [Event.listFolder "S" "20251202", Event.openArtifacts "S" "20251202",
          Event.sinkUpsert "S" "20251202",
          Event.checkpointSave (save_processed_stores (insert "S" stEmpty.processed))]) ∧
    Event.openArtifacts "S" "20251205" ∉
      Event.listStore "S" ::
        (([] : List (String × YMD)).map (fun p => Event.listFolder "S" p.1) ++
         [Event.listFolder "S" "20251202", Event.openArtifacts "S" "20251202",
          Event.sinkUpsert "S" "20251202",
          Event.checkpointSave (save_processed_stores (insert "S" stEmpty.processed))]) ∧
    Event.sinkUpsert "S" "20251205" ∉
      Event.listStore "S" ::
        (([] : List (String × YMD)).map (fun p => Event.listFolder "S" p.1) ++
         [Event.listFolder "S" "20251202", Event.openArtifacts "S" "20251202",
          Event.sinkUpsert "S" "20251202",
          Event.checkpointSave (save_processed_stores (insert "S" stEmpty.processed))]) ∧
    YMD.le dW1 dW2 = true :=
  claim_C4_first_eligible_date envRangeW loW hiW dW1 dW2 "S" "20251202" "20251205"
    ["20251202", "20251205"] [] [("20251205", dW2)] stEmpty
    (by decide) rfl (by decide) (by simp) (by decide) rfl (by simp) (by decide) (by simp)
